import Mathlib

/-!
Verification of the core of the `simple-time-tracker-invoice` plugin.

Strings are modelled as `List Char` (the code only ever manipulates them
character by character: splitting, trimming, regular-expression character
classes, truncation).  JavaScript numbers appearing in the core are exact
in every relevant computation, so they are modelled as `ℚ` (millisecond
timestamps as `ℤ`).  The JavaScript `Date` built-in is modelled by the
fragment of the ECMA-262 date-time string grammar that this plugin
constructs and re-parses (`YYYY-MM-DDTHH:MM:SS`), with an idealized fixed
UTC offset (time-zone offsets cancel in every difference the code takes).
-/

namespace STTI

/-! ### JavaScript string primitives -/

/-- The whitespace class used by `String.prototype.trim` and by `\s`
(space, ASCII control whitespace, NBSP and the Unicode space separators). -/
def jsWhitespace (c : Char) : Bool :=
  c.toNat = 32 || c.toNat = 9 || c.toNat = 10 || c.toNat = 13 ||
  c.toNat = 11 || c.toNat = 12 ||
  c.toNat = 0xa0 || c.toNat = 0x1680 ||
  (0x2000 ≤ c.toNat && c.toNat ≤ 0x200a) ||
  c.toNat = 0x2028 || c.toNat = 0x2029 || c.toNat = 0x202f ||
  c.toNat = 0x205f || c.toNat = 0x3000 || c.toNat = 0xfeff

/-- An ASCII digit, the `\d` character class. -/
def isDigitChar (c : Char) : Bool := 48 ≤ c.toNat && c.toNat ≤ 57

/-- `String.prototype.trim`: drop whitespace from both ends. -/
def jsTrim (l : List Char) : List Char :=
  ((l.dropWhile jsWhitespace).reverse.dropWhile jsWhitespace).reverse

/-- `String.prototype.split` with a single-character separator: splits at
every occurrence, keeping empty pieces (`"".split(' ') = [""]`,
`"a  b".split(' ') = ["a","","b"]`). -/
def splitChar (sep : Char) : List Char → List (List Char)
  | [] => [[]]
  | c :: rest =>
    if c = sep then [] :: splitChar sep rest
    else
      match splitChar sep rest with
      | [] => [[c]]
      | h :: t => (c :: h) :: t

/-- Numeric value of an ASCII digit. -/
def digitVal (c : Char) : Nat := c.toNat - 48

/-- Leading decimal-digit run of a string, as a number; `none` when the
string does not start with a digit (the `NaN` case of `parseInt`). -/
def leadingDigitsVal (l : List Char) : Option Nat :=
  match l.takeWhile isDigitChar with
  | [] => none
  | ds => some (ds.foldl (fun a c => 10 * a + digitVal c) 0)

/-- `parseInt(s)` (radix 10): skip leading whitespace, optional sign,
longest digit run; `NaN` (here `none`) when no digits follow. -/
def jsParseInt (l : List Char) : Option Int :=
  match l.dropWhile jsWhitespace with
  | [] => none
  | c :: r =>
    if c = '+' then (leadingDigitsVal r).map (fun n => (n : Int))
    else if c = '-' then (leadingDigitsVal r).map (fun n => -(n : Int))
    else (leadingDigitsVal (c :: r)).map (fun n => (n : Int))

/-- `String.prototype.padStart(2, '0')`. -/
def padStart2 (s : List Char) : List Char :=
  if 2 ≤ s.length then s else List.replicate (2 - s.length) '0' ++ s

/-- `n.toString().padStart(2, '0')` for a natural number. -/
def pad2Nat (n : Nat) : List Char := padStart2 (toString n).data

/-- `n.toString().padStart(2, '0')` for an integer. -/
def pad2Int (n : Int) : List Char := padStart2 (toString n).data

/-- A character of the C0/C1 control ranges stripped by the sanitizers
(`[\u0000-\u001F\u007F-\u009F]`). -/
def isControlChar (c : Char) : Bool :=
  c.toNat ≤ 0x1f || (0x7f ≤ c.toNat && c.toNat ≤ 0x9f)

/-- `sanitizeText` of `src/main.ts`: strip control characters, strip
`<` and `>`, truncate to 500 characters. -/
def sanitizeText (l : List Char) : List Char :=
  (((l.filter (fun c => !isControlChar c)).filter
      (fun c => !(c = '<' || c = '>'))).take 500)

/-- Replace the first occurrence of the pattern `pat` by the empty string
(`String.prototype.replace` with a plain-string pattern), as used for
`marginLeft.replace('em', '')`. -/
def replaceFirst (pat : List Char) : List Char → List Char
  | [] => []
  | c :: rest =>
    if pat ≠ [] && pat.isPrefixOf (c :: rest) then (c :: rest).drop pat.length
    else c :: replaceFirst pat rest

/-! ### The JavaScript `Date` built-in (the fragment this plugin uses) -/

def isLeapYear (y : Nat) : Bool :=
  (y % 4 = 0 && y % 100 ≠ 0) || y % 400 = 0

def daysInMonth (y m : Nat) : Nat :=
  if m = 2 then (if isLeapYear y then 29 else 28)
  else if m = 4 || m = 6 || m = 9 || m = 11 then 30
  else 31

/-- Days from 0000-03-01 (proleptic Gregorian) to the given civil date,
computed for a year already shifted by +400 so that all arithmetic stays
in `Nat` (the 400-year cycle has exactly 146097 days). -/
def civilDays (y m d : Nat) : Nat :=
  let y' := if m ≤ 2 then y - 1 else y
  let era := y' / 400
  let yoe := y' % 400
  let mp := if 2 < m then m - 3 else m + 9
  let doy := (153 * mp + 2) / 5 + (d - 1)
  let doe := yoe * 365 + yoe / 4 - yoe / 100 + doy
  era * 146097 + doe

/-- Milliseconds since the Unix epoch of a civil date-time. -/
def epochMs (y mo d h mi s : Nat) : Int :=
  ((civilDays (y + 400) mo d : Int) - 146097 - 719468) * 86400000 +
    (h : Int) * 3600000 + (mi : Int) * 60000 + (s : Int) * 1000

/-- ECMA-262 validity of the date-time string components: a real calendar
day, and a time of day (hour 24 only as `24:00:00`). -/
def jsValidDateTime (y mo d h mi s : Nat) : Bool :=
  1 ≤ mo && mo ≤ 12 && 1 ≤ d && d ≤ daysInMonth y mo &&
  ((h ≤ 23 && mi ≤ 59 && s ≤ 59) || (h = 24 && mi = 0 && s = 0))

/-- `new Date(s).getTime()` for the `YYYY-MM-DDTHH:MM:SS` format this
plugin constructs: `some` milliseconds for a real calendar instant,
`none` for `NaN` (invalid date).  Other formats accepted by JavaScript
never reach the claims settled here. -/
def jsDateParse (l : List Char) : Option Int :=
  match l with
  | [y1, y2, y3, y4, s1, a1, a2, s2, b1, b2, t, c1, c2, s3, d1, d2, s4, e1, e2] =>
    if s1 = '-' && s2 = '-' && t = 'T' && s3 = ':' && s4 = ':' &&
       isDigitChar y1 && isDigitChar y2 && isDigitChar y3 && isDigitChar y4 &&
       isDigitChar a1 && isDigitChar a2 && isDigitChar b1 && isDigitChar b2 &&
       isDigitChar c1 && isDigitChar c2 && isDigitChar d1 && isDigitChar d2 &&
       isDigitChar e1 && isDigitChar e2 then
      let y := 1000 * digitVal y1 + 100 * digitVal y2 + 10 * digitVal y3 + digitVal y4
      let mo := 10 * digitVal a1 + digitVal a2
      let d := 10 * digitVal b1 + digitVal b2
      let h := 10 * digitVal c1 + digitVal c2
      let mi := 10 * digitVal d1 + digitVal d2
      let s := 10 * digitVal e1 + digitVal e2
      if jsValidDateTime y mo d h mi s then some (epochMs y mo d h mi s) else none
    else none
  | _ => none

/-! ### `src/main.ts`: the Date/Time Normalizer -/

/-- The regular expression `^\d{2}-\d{2}-\d{2}$`. -/
def matchDatePattern : List Char → Bool
  | [a, b, c, d, e, f, g, h] =>
    isDigitChar a && isDigitChar b && c = '-' && isDigitChar d && isDigitChar e && f = '-' &&
    isDigitChar g && isDigitChar h
  | _ => false

/-- The regular expression `^\d{2}:\d{2}:\d{2}$`. -/
def matchTimePattern : List Char → Bool
  | [a, b, c, d, e, f, g, h] =>
    isDigitChar a && isDigitChar b && c = ':' && isDigitChar d && isDigitChar e && f = ':' &&
    isDigitChar g && isDigitChar h
  | _ => false

/-- `parseTimeTrackerDate` of `src/main.ts` (the Date/Time Normalizer),
on a string argument; the `undefined` argument case is handled by
`parseTimeTrackerDateOpt` below. -/
def parseTimeTrackerDate (dateStr : List Char) : Option (List Char) :=
  if jsTrim dateStr = [] then none
  else
    match splitChar ' ' dateStr with
    | [datePart, timePart] =>
      if matchDatePattern datePart && matchTimePattern timePart then
        match splitChar '-' datePart with
        | [yc, mc, dc] =>
          match jsParseInt yc, jsParseInt mc, jsParseInt dc with
          | some y0, some mo, some d =>
            if mo < 1 || 12 < mo || d < 1 || 31 < d then none
            else
              let year := if y0 < 50 then 2000 + y0 else 1900 + y0
              if year < 1900 || 2100 < year then none
              else
                let iso := (toString year).data ++ '-' :: pad2Int mo ++
                  '-' :: pad2Int d ++ 'T' :: timePart
                if (jsDateParse iso).isSome then some iso else none
          | _, _, _ => none
        | _ => none
      else none
    | _ => none

/-- The normalizer applied to a possibly-`undefined` argument
(`!dateStr` is true for `undefined` and for the empty string). -/
def parseTimeTrackerDateOpt (dateStr : Option (List Char)) : Option (List Char) :=
  match dateStr with
  | none => none
  | some s => parseTimeTrackerDate s

/-- The century disambiguation the claim specifies: a two-digit year
below 50 maps to `2000 + year`, otherwise to `1900 + year`. -/
def mapCentury (yy : Nat) : Nat :=
  if yy < 50 then 2000 + yy else 1900 + yy

/-- The canonical output string the claim specifies:
`YYYY-MM-DDTHH:MM:SS` with the century-mapped year and two-digit padded
month and day, followed by the time token verbatim. -/
def canonicalForm (yy mo d : Nat) (timePart : List Char) : List Char :=
  (toString (mapCentury yy)).data ++ '-' :: padStart2 (toString mo).data ++
    '-' :: padStart2 (toString d).data ++ 'T' :: timePart

/-! ### `src/main.ts`: the Table-to-Entry Extractor -/

/-- The `span` element found inside a table cell: its `textContent`
(`null` possible) and its `style.marginLeft` (empty string when unset). -/
structure SpanInfo where
  textContent : Option (List Char)
  marginLeft : List Char
  deriving DecidableEq

/-- A `td` cell; `span` is the result of `cell.querySelector('span')`. -/
structure TableCell where
  span : Option SpanInfo
  deriving DecidableEq

/-- A `tr` row as its list of `td` cells. -/
abbrev TableRow := List TableCell

/-- One entry of the JSON envelope produced by `extractDataFromTable`. -/
structure ExtractedEntry where
  name : List Char
  startTime : Option (List Char)
  endTime : Option (List Char)
  level : Nat
  deriving DecidableEq

/-- `spanText?.trim()` followed by `|| 'Unknown Task'`: the optional-chain
plus default applied to column 0's text. -/
def cellLabel (c0 : TableCell) : List Char :=
  match c0.span with
  | none => "Unknown Task".data
  | some sp =>
    match sp.textContent with
    | none => "Unknown Task".data
    | some t => if jsTrim t = [] then "Unknown Task".data else jsTrim t

/-- `Math.min(Math.max(parseInt(marginLeft.replace('em','')) || 0, 0), 10)`
with `marginLeft = nameSpan?.style.marginLeft || '0em'`. -/
def cellLevel (c0 : TableCell) : Nat :=
  let ml :=
    match c0.span with
    | none => "0em".data
    | some sp => if sp.marginLeft = [] then "0em".data else sp.marginLeft
  let n : Int := (jsParseInt (replaceFirst "em".data ml)).getD 0
  (max n 0).toNat.min 10

/-- `spanText?.textContent?.trim()` for the start/end columns
(`undefined` when the span or its text is missing). -/
def cellTimeText (c : TableCell) : Option (List Char) :=
  match c.span with
  | none => none
  | some sp =>
    match sp.textContent with
    | none => none
    | some t => some (jsTrim t)

/-- The entry pushed for one qualifying row (`cells[0]`..`cells[2]`). -/
def rowToEntry (row : TableRow) : ExtractedEntry :=
  let c0 := row.getD 0 ⟨none⟩
  let c1 := row.getD 1 ⟨none⟩
  let c2 := row.getD 2 ⟨none⟩
  { name := sanitizeText (cellLabel c0)
    startTime := parseTimeTrackerDateOpt (cellTimeText c1)
    endTime := parseTimeTrackerDateOpt (cellTimeText c2)
    level := cellLevel c0 }

/-- `extractDataFromTable` of `src/main.ts`: the loop
`for (let i = 1; i < Math.min(rows.length, 1001); i++)` pushing one entry
per row with at least 4 cells; returns the envelope when non-empty,
`null` otherwise (JSON serialization itself is an external collaborator,
so the envelope is modelled as the entry list it wraps). -/
def extractDataFromTable (rows : List TableRow) : Option (List ExtractedEntry) :=
  let entries :=
    (List.range' 1 (min rows.length 1001 - 1)).filterMap fun i =>
      match rows.get? i with
      | none => none
      | some row => if 4 ≤ row.length then some (rowToEntry row) else none
  if 0 < entries.length then some entries else none

/-! ### `src/src/time-tracker-parser.ts`: the Entry Tree Processor -/

/-- A JavaScript number as far as this plugin's arithmetic can observe it:
a rational, or `NaN` (from `getTime()` of an invalid date). -/
inductive JSNum where
  | num (q : ℚ)
  | nan
  deriving DecidableEq

/-- A raw entry of the parsed JSON envelope: fields may be absent
(`undefined`), and `subEntries` nests arbitrarily (an absent or empty
`subEntries` array are observably identical here). -/
inductive RawEntry where
  | mk (name : Option (List Char)) (startTime endTime : Option (List Char))
       (subEntries : List RawEntry)

def RawEntry.name : RawEntry → Option (List Char)
  | .mk n _ _ _ => n

def RawEntry.startTime : RawEntry → Option (List Char)
  | .mk _ s _ _ => s

def RawEntry.endTime : RawEntry → Option (List Char)
  | .mk _ _ e _ => e

def RawEntry.subEntries : RawEntry → List RawEntry
  | .mk _ _ _ subs => subs

/-- One flattened output entry of the Tree Processor. -/
structure FlatEntry where
  name : Option (List Char)
  startTime : Option (List Char)
  endTime : Option (List Char)
  level : Nat
  duration : JSNum
  deriving DecidableEq

/-- `!x` on an optional string: true for `undefined`/`null` and for `''`. -/
def jsFalsyStr (s : Option (List Char)) : Bool :=
  match s with
  | none => true
  | some t => t = []

/-- `calculateDuration` of `src/src/time-tracker-parser.ts`: no clamping
and no invalid-date guard — `new Date(bad).getTime()` is `NaN` and the
`NaN` propagates through the subtraction and division. -/
def calculateDuration (startTime endTime : Option (List Char)) : JSNum :=
  if jsFalsyStr startTime || jsFalsyStr endTime then .num 0
  else
    match startTime, endTime with
    | some s, some e =>
      match jsDateParse s, jsDateParse e with
      | some ts, some te => .num (((te - ts : Int) : ℚ) / (1000 * 60 * 60))
      | _, _ => .nan
    | _, _ => .num 0

/-- `processEntries` of `src/src/time-tracker-parser.ts`: for each entry
push one processed entry, then (recursively) its flattened sub-entries,
then continue with the remaining entries. -/
def processEntries : List RawEntry → Nat → List FlatEntry
  | [], _ => []
  | .mk n st en subs :: rest, level =>
    { name := n, startTime := st, endTime := en, level := level,
      duration := calculateDuration st en } ::
      (processEntries subs (level + 1) ++ processEntries rest level)

mutual

/-- Pre-order flattening of one entry as the specification words it: the
entry annotated with its depth, immediately followed by the flattening of
its own sub-entries at depth + 1. -/
def flattenEntry : RawEntry → Nat → List FlatEntry
  | .mk n st en subs, d =>
    { name := n, startTime := st, endTime := en, level := d,
      duration := calculateDuration st en } :: flattenEntries subs (d + 1)

/-- Pre-order flattening of an entry list as the specification words it:
the flattenings of the entries in their original order, concatenated. -/
def flattenEntries : List RawEntry → Nat → List FlatEntry
  | [], _ => []
  | e :: rest, d => flattenEntry e d ++ flattenEntries rest d

end

/-! ### `src/src/invoice-generator.ts`: computation and rendering -/

/-- `TimeEntry` as consumed by the Invoice Computation & Rendering Engine
(the flattened entries: no `subEntries`, `level` optional). -/
structure TimeEntry where
  name : List Char
  startTime : Option (List Char)
  endTime : Option (List Char)
  level : Option Nat
  deriving DecidableEq

/-- `InvoiceSettings` (read-only configuration). -/
structure InvoiceSettings where
  companyName : List Char
  companyAddress : List Char
  companyLogo : List Char
  hourlyRate : ℚ
  billingTerms : List Char
  memo : List Char
  invoiceDirectory : List Char
  deriving DecidableEq

/-- `InvoiceOptions` collected by the options modal. -/
structure InvoiceOptions where
  flatRateAmount : Option ℚ
  deriving DecidableEq

/-- `escapeText` of `src/src/invoice-generator.ts`: strip control
characters, truncate to 1000 characters. -/
def escapeText (l : List Char) : List Char :=
  (l.filter (fun c => !isControlChar c)).take 1000

/-- `options?.flatRateAmount`: the optional-chained flat-rate override
(`undefined` when `options` itself is `undefined`). -/
def effectiveFlatAmount (options : Option InvoiceOptions) : Option ℚ :=
  match options with
  | none => none
  | some o => o.flatRateAmount

/-- `Math.max` on two (non-`NaN`) numbers. -/
def jsMax (a b : ℚ) : ℚ := if a ≤ b then b else a

/-- `Math.min` on two (non-`NaN`) numbers. -/
def jsMin (a b : ℚ) : ℚ := if a ≤ b then a else b

/-- `calculateEntryDuration`: 0 on a falsy endpoint, 0 on an invalid
date, otherwise the difference in hours clamped by
`Math.max(0, Math.min(diffHours, 24 * 365))`. -/
def calculateEntryDuration (e : TimeEntry) : ℚ :=
  if jsFalsyStr e.startTime || jsFalsyStr e.endTime then 0
  else
    match e.startTime, e.endTime with
    | some s, some en =>
      match jsDateParse s, jsDateParse en with
      | some ts, some te =>
        jsMax 0 (jsMin (((te - ts : Int) : ℚ) / (1000 * 60 * 60)) (24 * 365))
      | _, _ => 0
    | _, _ => 0

/-- `calculateTotalHours`: `entries.reduce((total, e) => total + dur e, 0)`. -/
def calculateTotalHours (entries : List TimeEntry) : ℚ :=
  entries.foldl (fun total e => total + calculateEntryDuration e) 0

/-- The current date as observed through `getFullYear`, `getMonth() + 1`
and `getDate()`. -/
structure SimpleDate where
  year : Nat
  month : Nat
  day : Nat
  deriving DecidableEq

/-- `generateInvoiceNumber`, with `Math.random()`'s draw as an explicit
input: `` `${year}-${month pad}-${day pad}-${Math.floor(rand * 10000)}` ``. -/
def generateInvoiceNumber (now : SimpleDate) (rand : ℚ) : List Char :=
  (toString now.year).data ++ '-' :: pad2Nat now.month ++ '-' :: pad2Nat now.day ++
    '-' :: (toString (Int.floor (rand * 10000))).data

/-- The filesystem-unsafe character class of `sanitizeFilename`:
`[<>:"/\\|?*\x00-\x1f]`. -/
def fsUnsafeChar (c : Char) : Bool :=
  c = '<' || c = '>' || c = ':' || c = '"' || c = '/' || c = '\\' ||
  c = '|' || c = '?' || c = '*' || c.toNat ≤ 0x1f

/-- Worker of `collapseRuns`: `inRun` records whether the previous
character was part of a run already replaced by a hyphen. -/
def collapseRunsGo (p : Char → Bool) (inRun : Bool) : List Char → List Char
  | [] => []
  | c :: rest =>
    if p c then (if inRun then [] else ['-']) ++ collapseRunsGo p true rest
    else c :: collapseRunsGo p false rest

/-- The two global run-collapsing replacements of `sanitizeFilename`
(whitespace runs `\s+` and hyphen runs `-+`, each replaced by `'-'`):
collapse every maximal run of characters matching `p` into one hyphen. -/
def collapseRuns (p : Char → Bool) (l : List Char) : List Char :=
  collapseRunsGo p false l

/-- `replace(/^-|-$/g, '')`: remove one leading and one trailing hyphen. -/
def stripEdgeHyphens (l : List Char) : List Char :=
  let a := if l.head? = some '-' then l.tail else l
  if a.getLast? = some '-' then a.dropLast else a

/-- The hyphen-run character class `-+` of `sanitizeFilename`. -/
def isHyphen (c : Char) : Bool := c = '-'

/-- `sanitizeFilename` before its final `substring(0, 50)`: unsafe
characters to hyphens, whitespace runs to hyphens, hyphen runs
collapsed, edge hyphens stripped. -/
def preSanitize (l : List Char) : List Char :=
  stripEdgeHyphens (collapseRuns isHyphen
    (collapseRuns jsWhitespace (l.map fun c => if fsUnsafeChar c then '-' else c)))

/-- `sanitizeFilename`: the replacement pipeline above followed by
`substring(0, 50)`. -/
def sanitizeFilename (l : List Char) : List Char :=
  (preSanitize l).take 50

/-- No two consecutive characters of the string are both hyphens. -/
def NoDoubleHyphen (l : List Char) : Prop :=
  List.Chain' (fun a b => ¬(a = '-' ∧ b = '-')) l

/-- The file name built by `generateFilePath` (the directory half is the
`moment`-templated path of an external collaborator and carries no claim):
`` `${safeCompanyName}-invoice-${invoiceNumber}.pdf` `` with the company
name defaulting to `'Company'` when unset. -/
def generateFileName (settings : InvoiceSettings) (now : SimpleDate) (rand : ℚ) :
    List Char :=
  let invoiceNumber := generateInvoiceNumber now rand
  let companyName := if settings.companyName = [] then "Company".data
    else settings.companyName
  let safeCompanyName := sanitizeFilename companyName
  safeCompanyName ++ "-invoice-".data ++ invoiceNumber ++ ".pdf".data

/-- A start/end cell of the itemized table: `formatTime` either renders a
dash (null or invalid date) or a locale rendering of the parsed instant
(the instant fully determines the rendered text). -/
inductive TimeDisp where
  | dash
  | shown (t : Int)
  deriving DecidableEq

def formatTime (timeString : Option (List Char)) : TimeDisp :=
  match timeString with
  | none => .dash
  | some s =>
    if s = [] then .dash
    else
      match jsDateParse s with
      | none => .dash
      | some t => .shown t

/-- A rate or amount cell: the explicit `'-'` marker or a numeric value
(rendered via `toFixed(2)`). -/
inductive PDFCell where
  | dash
  | val (q : ℚ)
  deriving DecidableEq

/-- One row of the itemized table as produced inside `addPDFContent`. -/
structure RenderedRow where
  task : List Char
  start : TimeDisp
  stop : TimeDisp
  hours : ℚ
  rate : PDFCell
  amount : PDFCell
  deriving DecidableEq

/-- The content `addPDFContent` lays out: header fields, the itemized
table rows, and the summary and notes blocks. -/
structure PDFData where
  invoiceNumber : List Char
  issueDate : SimpleDate
  companyName : List Char
  addressLines : List (List Char)
  rows : List RenderedRow
  totalHours : ℚ
  rateLabel : List Char
  rateValue : ℚ
  totalAmount : ℚ
  memoLines : Option (List (List Char))
  terms : List Char
  deriving DecidableEq

/-- `addPDFContent` of `src/src/invoice-generator.ts` as the document
content it draws (`now` is the current date and `rand` the `Math.random()`
draw consumed by its `generateInvoiceNumber()` call). -/
def addPDFContent (now : SimpleDate) (rand : ℚ) (entries : List TimeEntry)
    (settings : InvoiceSettings) (options : Option InvoiceOptions) : PDFData :=
  let totalHours := calculateTotalHours entries
  let flatAmt : Option ℚ := effectiveFlatAmount options
  let isFlateRate := flatAmt.isSome
  let subtotal : ℚ :=
    match flatAmt with
    | some a => a
    | none => totalHours * settings.hourlyRate
  let rows := entries.map fun e =>
    let duration := calculateEntryDuration e
    let indent : List Char := List.replicate (2 * min (e.level.getD 0) 10) ' '
    if isFlateRate then
      { task := escapeText (indent ++ e.name), start := formatTime e.startTime,
        stop := formatTime e.endTime, hours := duration,
        rate := .dash, amount := .dash }
    else
      { task := escapeText (indent ++ e.name), start := formatTime e.startTime,
        stop := formatTime e.endTime, hours := duration,
        rate := .val settings.hourlyRate,
        amount := .val (duration * settings.hourlyRate) }
  { invoiceNumber := generateInvoiceNumber now rand
    issueDate := now
    companyName := escapeText (if settings.companyName = [] then
      "Your Company".data else settings.companyName)
    addressLines := if settings.companyAddress = [] then []
      else (splitChar '\n' settings.companyAddress).map escapeText
    rows := rows
    totalHours := totalHours
    rateLabel := if isFlateRate then "Project Rate:".data else "Hourly Rate:".data
    rateValue :=
      match flatAmt with
      | some a => a
      | none => settings.hourlyRate
    totalAmount := subtotal
    memoLines := if settings.memo = [] then none
      else some ((splitChar '\n' settings.memo).map escapeText)
    terms := "Payment Terms: ".data ++ escapeText settings.billingTerms }

/-- `generatePDF`: the `try`/`catch` around document creation and layout.
The tried block's outcome (jsPDF is an external library that may throw)
is the explicit `layout` input; a failure is re-thrown as
`` `PDF generation failed: ${error.message}` ``. -/
def generatePDF (layout : Except (List Char) PDFData) : Except (List Char) PDFData :=
  match layout with
  | .ok doc => .ok doc
  | .error msg => .error ("PDF generation failed: ".data ++ msg)

/-- `generateInvoice`: generate the PDF, then persist it at `filePath`
(persistence by the vault adapter may itself fail, the explicit `persist`
input); any error of either step is caught and re-thrown as
`` `Failed to generate invoice: ${error.message}` ``.  The `ok` payload is
the persisted artifact: the file path together with the document written
to it — produced only when every step succeeded. -/
def generateInvoice (layout : Except (List Char) PDFData)
    (persist : Except (List Char) Unit) (filePath : List Char) :
    Except (List Char) (List Char × PDFData) :=
  match
    (do
      let doc ← generatePDF layout
      let _ ← persist
      pure (filePath, doc) : Except (List Char) (List Char × PDFData))
  with
  | .ok r => .ok r
  | .error msg => .error ("Failed to generate invoice: ".data ++ msg)

/-- The two `generateInvoiceNumber()` call sites inside one
`generateInvoice` invocation, with the random source as an explicit
stream: `generatePDF → addPDFContent` consumes the first draw (the number
printed on the document), `generateFilePath` the second (the number in
the file name). -/
def generateInvoiceModel (now : SimpleDate) (rands : Nat → ℚ)
    (entries : List TimeEntry) (settings : InvoiceSettings)
    (options : Option InvoiceOptions) : PDFData × List Char :=
  (addPDFContent now (rands 0) entries settings options,
   generateFileName settings now (rands 1))

/-! ## Lemmas -/

theorem toString_intCast_nat (n : ℕ) : toString ((n : ℤ)) = toString n := rfl

theorem jsMax_eq_max (a b : ℚ) : jsMax a b = max a b := by
  rw [jsMax]
  split
  · rename_i h
    exact (max_eq_right h).symm
  · rename_i h
    exact (max_eq_left (le_of_not_le h)).symm

theorem jsMin_eq_min (a b : ℚ) : jsMin a b = min a b := by
  rw [jsMin]
  split
  · rename_i h
    exact (min_eq_left h).symm
  · rename_i h
    exact (min_eq_right (le_of_not_le h)).symm

theorem processEntries_eq_flattenEntries (l : List RawEntry) (d : Nat) :
    processEntries l d = flattenEntries l d := by
  induction l, d using processEntries.induct with
  | case1 d => simp [processEntries, flattenEntries]
  | case2 n st en subs rest level ih1 ih2 =>
    simp [processEntries, flattenEntries, flattenEntry, ih1, ih2]

theorem foldl_add_eq_sum (f : TimeEntry → ℚ) :
    ∀ (l : List TimeEntry) (a : ℚ),
      l.foldl (fun t e => t + f e) a = a + (l.map f).sum
  | [], a => by simp
  | e :: rest, a => by
    rw [List.foldl_cons, foldl_add_eq_sum f rest (a + f e)]
    simp [add_assoc]

theorem collapseRunsGo_hyphens :
    ∀ (l : List Char) (b : Bool),
      NoDoubleHyphen (collapseRunsGo isHyphen b l) ∧
      (b = true → (collapseRunsGo isHyphen b l).head? ≠ some '-')
  | [], b => by simp [collapseRunsGo, NoDoubleHyphen]
  | c :: rest, b => by
    rw [collapseRunsGo]
    split
    · rename_i hc
      rcases b with _ | _
      · simp only [if_neg Bool.false_ne_true, List.singleton_append]
        have ih := collapseRunsGo_hyphens rest true
        refine ⟨?_, ?_⟩
        · rw [NoDoubleHyphen, List.chain'_cons']
          refine ⟨?_, ih.1⟩
          intro y hy hcon
          exact ih.2 rfl (by rw [hy, hcon.2])
        · intro hb
          exact absurd hb (by simp)
      · simp only [if_pos rfl, List.nil_append]
        have ih := collapseRunsGo_hyphens rest true
        exact ⟨ih.1, fun _ => ih.2 rfl⟩
    · rename_i hc
      have ih := collapseRunsGo_hyphens rest false
      have hne : c ≠ '-' := by
        intro hcon
        exact hc (by simp [isHyphen, hcon])
      refine ⟨?_, ?_⟩
      · rw [NoDoubleHyphen, List.chain'_cons']
        refine ⟨?_, ih.1⟩
        intro y _ hcon
        exact hne hcon.1
      · intro _ hcon
        simp at hcon
        exact hne hcon

theorem chain'_collapse_hyphens (l : List Char) :
    NoDoubleHyphen (collapseRuns isHyphen l) :=
  (collapseRunsGo_hyphens l false).1

theorem nodh_reverse {l : List Char} (h : NoDoubleHyphen l) :
    NoDoubleHyphen l.reverse := by
  rw [NoDoubleHyphen, List.chain'_reverse]
  exact h.imp (fun a b hab hcon => hab ⟨hcon.2, hcon.1⟩)

theorem nodh_head_tail {c : Char} {t : List Char}
    (h : NoDoubleHyphen (c :: t)) (hc : c = '-') : t.head? ≠ some '-' := by
  rw [NoDoubleHyphen, List.chain'_cons'] at h
  intro hcon
  exact h.1 '-' hcon ⟨hc, rfl⟩

theorem nodh_dropLast_getLast {a : List Char} (h : NoDoubleHyphen a)
    (hl : a.getLast? = some '-') : a.dropLast.getLast? ≠ some '-' := by
  intro hcon
  rw [← List.head?_reverse] at hl hcon
  have hrev : NoDoubleHyphen a.reverse := nodh_reverse h
  have hdrop : a.dropLast.reverse = a.reverse.tail := by
    induction a using List.reverseRecOn with
    | nil => rfl
    | append_singleton init x _ => simp
  rw [hdrop] at hcon
  cases hrw : a.reverse with
  | nil => rw [hrw] at hl; simp at hl
  | cons c t =>
    rw [hrw] at hl hcon
    simp at hl
    rw [hrw] at hrev
    exact nodh_head_tail hrev hl (by simpa using hcon)

theorem nodh_dropLast {a : List Char} (h : NoDoubleHyphen a) :
    NoDoubleHyphen a.dropLast :=
  h.prefix (by rw [List.dropLast_eq_take]; exact List.take_prefix _ _)

theorem stripEdge_spec {l : List Char} (h : NoDoubleHyphen l) :
    NoDoubleHyphen (stripEdgeHyphens l) ∧
    (stripEdgeHyphens l).head? ≠ some '-' ∧
    (stripEdgeHyphens l).getLast? ≠ some '-' := by
  have key : ∀ a : List Char, NoDoubleHyphen a → a.head? ≠ some '-' →
      NoDoubleHyphen (if a.getLast? = some '-' then a.dropLast else a) ∧
      (if a.getLast? = some '-' then a.dropLast else a).head? ≠ some '-' ∧
      (if a.getLast? = some '-' then a.dropLast else a).getLast? ≠ some '-' := by
    intro a ha hhead
    by_cases hlast : a.getLast? = some '-'
    · rw [if_pos hlast]
      refine ⟨nodh_dropLast ha, ?_, nodh_dropLast_getLast ha hlast⟩
      intro hcon
      apply hhead
      cases a with
      | nil => simp at hcon
      | cons c t =>
        cases t with
        | nil => simp at hcon
        | cons d t' => simpa using hcon
    · rw [if_neg hlast]
      exact ⟨ha, hhead, hlast⟩
  by_cases h1 : l.head? = some '-'
  · have hrw : stripEdgeHyphens l =
        (if l.tail.getLast? = some '-' then l.tail.dropLast else l.tail) := by
      rw [stripEdgeHyphens]
      simp [h1]
    rw [hrw]
    refine key l.tail h.tail ?_
    cases l with
    | nil => simp
    | cons c t =>
      simp at h1
      exact nodh_head_tail h h1
  · have hrw : stripEdgeHyphens l =
        (if l.getLast? = some '-' then l.dropLast else l) := by
      rw [stripEdgeHyphens]
      simp [h1]
    rw [hrw]
    exact key l h h1

theorem filterMap_range'_get (f : TableRow → Option ExtractedEntry) :
    ∀ (n s : Nat) (l : List TableRow),
      (List.range' s n).filterMap (fun i =>
        match l.get? i with
        | none => none
        | some row => f row) =
      ((l.drop s).take n).filterMap f
  | 0, s, l => by simp
  | n + 1, s, l => by
    rw [List.range'_succ s n 1, List.filterMap_cons]
    by_cases hlt : s < l.length
    · have hg : l.get? s = some l[s] := List.get?_eq_get hlt
      have hdrop : l.drop s = l[s] :: l.drop (s + 1) :=
        (List.getElem_cons_drop l s hlt).symm
      rw [filterMap_range'_get f n (s + 1) l, hdrop, List.take_succ_cons,
        List.filterMap_cons, hg]
    · have hlen : l.length ≤ s := le_of_not_lt hlt
      have hg : l.get? s = none := List.get?_eq_none.mpr hlen
      rw [filterMap_range'_get f n (s + 1) l, hg,
        List.drop_eq_nil_of_le hlen,
        List.drop_eq_nil_of_le (le_trans hlen (Nat.le_succ s))]
      simp

theorem filterMap_if_eq_filter_map :
    ∀ l : List TableRow,
      l.filterMap (fun row => if 4 ≤ row.length then some (rowToEntry row) else none) =
        (l.filter (fun r => 4 ≤ r.length)).map rowToEntry
  | [] => rfl
  | row :: rest => by
    rw [List.filterMap_cons, List.filter_cons]
    by_cases h : 4 ≤ row.length
    · simp [h, filterMap_if_eq_filter_map rest]
    · simp [h, filterMap_if_eq_filter_map rest]

theorem extractDataFromTable_characterization (rows : List TableRow) :
    extractDataFromTable rows =
      (let es := (((rows.drop 1).take 1000).filter fun r => 4 ≤ r.length).map rowToEntry
       if es = [] then none else some es) := by
  rw [extractDataFromTable, filterMap_range'_get]
  have htake : (rows.drop 1).take (min rows.length 1001 - 1) = (rows.drop 1).take 1000 := by
    by_cases h : rows.length ≤ 1001
    · have h1 : (rows.drop 1).length ≤ min rows.length 1001 - 1 := by
        simp [List.length_drop]
        omega
      have h2 : (rows.drop 1).length ≤ 1000 := by
        simp [List.length_drop]
        omega
      rw [List.take_of_length_le h1, List.take_of_length_le h2]
    · have hmin : min rows.length 1001 - 1 = 1000 := by omega
      rw [hmin]
  rw [htake, filterMap_if_eq_filter_map]
  cases hes : (((rows.drop 1).take 1000).filter fun r => 4 ≤ r.length).map rowToEntry with
  | nil => simp
  | cons e t => simp

theorem splitChar_ne_nil (sep : Char) : ∀ l : List Char, splitChar sep l ≠ []
  | [] => by simp [splitChar]
  | c :: rest => by
    rw [splitChar]
    split
    · simp
    · split <;> simp

theorem splitChar_singleton_inv (sep : Char) :
    ∀ l x : List Char, splitChar sep l = [x] → l = x
  | [], x => by
    intro h
    simp [splitChar] at h
    rw [← h]
  | c :: rest, x => by
    intro h
    rw [splitChar] at h
    by_cases hc : c = sep
    · rw [if_pos hc] at h
      simp at h
      exact absurd h.2 (splitChar_ne_nil sep rest)
    · rw [if_neg hc] at h
      cases hr : splitChar sep rest with
      | nil => exact absurd hr (splitChar_ne_nil sep rest)
      | cons h' t' =>
        rw [hr] at h
        simp at h
        rcases h with ⟨h1, h2⟩
        subst h2
        have hrest : rest = h' := splitChar_singleton_inv sep rest h' hr
        rw [← h1, hrest]

theorem splitChar_pair_inv (sep : Char) :
    ∀ l d t : List Char, splitChar sep l = [d, t] → l = d ++ sep :: t
  | [], d, t => by
    intro h
    simp [splitChar] at h
  | c :: rest, d, t => by
    intro h
    rw [splitChar] at h
    by_cases hc : c = sep
    · rw [if_pos hc] at h
      simp at h
      rcases h with ⟨h1, h2⟩
      have hrt : rest = t := splitChar_singleton_inv sep rest t h2
      subst h1
      subst hrt
      rw [hc]
      rfl
    · rw [if_neg hc] at h
      cases hr : splitChar sep rest with
      | nil => exact absurd hr (splitChar_ne_nil sep rest)
      | cons h' t' =>
        rw [hr] at h
        simp at h
        rcases h with ⟨h1, h2⟩
        have hrest : rest = h' ++ sep :: t := by
          apply splitChar_pair_inv sep rest h' t
          rw [hr, h2]
        rw [← h1, hrest]
        simp

theorem splitChar_no_sep (sep : Char) :
    ∀ xs : List Char, (∀ c ∈ xs, c ≠ sep) → splitChar sep xs = [xs]
  | [], _ => rfl
  | c :: rest, h => by
    rw [splitChar, if_neg (h c (by simp)),
      splitChar_no_sep sep rest (fun x hx => h x (by simp [hx]))]

theorem splitChar_append_sep (sep : Char) :
    ∀ (xs ys : List Char), (∀ c ∈ xs, c ≠ sep) →
      splitChar sep (xs ++ sep :: ys) = xs :: splitChar sep ys
  | [], ys, _ => by
    rw [List.nil_append, splitChar, if_pos rfl]
  | c :: rest, ys, h => by
    rw [List.cons_append, splitChar, if_neg (h c (by simp)),
      splitChar_append_sep sep rest ys (fun x hx => h x (by simp [hx]))]

theorem digit_not_ws {a : Char} (h : isDigitChar a = true) : jsWhitespace a = false := by
  rw [isDigitChar] at h
  rw [jsWhitespace]
  simp only [Bool.and_eq_true, decide_eq_true_eq] at h
  simp only [Bool.or_eq_false_iff, decide_eq_false_iff_not, Bool.and_eq_false_iff]
  omega

theorem jsTrim_cons_ne {c : Char} (l : List Char) (hc : jsWhitespace c = false) :
    jsTrim (c :: l) ≠ [] := by
  rw [jsTrim]
  intro h
  rw [List.dropWhile_cons_of_neg (by simp [hc])] at h
  simp only [List.reverse_eq_nil_iff] at h
  have := List.dropWhile_eq_nil_iff.mp h
  have hcmem : c ∈ (c :: l).reverse := by simp
  have := this c hcmem
  rw [hc] at this
  exact Bool.false_ne_true this

theorem digit_ne {a ch : Char} (h : isDigitChar a = true)
    (hch : isDigitChar ch = false) : a ≠ ch := by
  intro he
  rw [he, hch] at h
  exact Bool.false_ne_true h

theorem jsParseInt_two_digits {a b : Char} (ha : isDigitChar a = true)
    (hb : isDigitChar b = true) :
    jsParseInt [a, b] = some (((10 * digitVal a + digitVal b : Nat) : Int)) := by
  rw [jsParseInt]
  rw [List.dropWhile_cons_of_neg (by simp [digit_not_ws ha])]
  show (if a = '+' then Option.map (fun n => (n : Int)) (leadingDigitsVal [b])
    else if a = '-' then Option.map (fun n => -(n : Int)) (leadingDigitsVal [b])
    else Option.map (fun n => (n : Int)) (leadingDigitsVal (a :: [b]))) =
    some ((10 * digitVal a + digitVal b : Nat) : Int)
  rw [if_neg (digit_ne ha (by decide)), if_neg (digit_ne ha (by decide))]
  rw [leadingDigitsVal]
  rw [List.takeWhile_cons_of_pos ha, List.takeWhile_cons_of_pos hb,
    List.takeWhile_nil]
  simp only [List.foldl_cons, List.foldl_nil, Option.map_some]
  have : 10 * (10 * 0 + digitVal a) + digitVal b = 10 * digitVal a + digitVal b := by
    omega
  rw [this]
  rfl

theorem parseTimeTrackerDate_eval {s t : List Char} {a b c d e f : Char}
    (hsplit : splitChar ' ' s = [[a, b, '-', c, d, '-', e, f], t])
    (hdp : matchDatePattern [a, b, '-', c, d, '-', e, f] = true)
    (htp : matchTimePattern t = true) :
    parseTimeTrackerDate s =
      (let y0 : Int := ((10 * digitVal a + digitVal b : Nat) : Int)
       let mo : Int := ((10 * digitVal c + digitVal d : Nat) : Int)
       let dy : Int := ((10 * digitVal e + digitVal f : Nat) : Int)
       if mo < 1 || 12 < mo || dy < 1 || 31 < dy then none
       else
         let year := if y0 < 50 then 2000 + y0 else 1900 + y0
         if year < 1900 || 2100 < year then none
         else
           let iso := (toString year).data ++ '-' :: pad2Int mo ++
             '-' :: pad2Int dy ++ 'T' :: t
           if (jsDateParse iso).isSome then some iso else none) := by
  have hdig := hdp
  rw [matchDatePattern] at hdig
  simp only [Bool.and_eq_true, decide_eq_true_eq] at hdig
  obtain ⟨⟨⟨⟨⟨⟨⟨ha, hb⟩, -⟩, hc⟩, hd⟩, -⟩, he⟩, hf⟩ := hdig
  have hs : s = [a, b, '-', c, d, '-', e, f] ++ ' ' :: t :=
    splitChar_pair_inv ' ' s _ t hsplit
  have htrim : ¬ jsTrim s = [] := by
    rw [hs]
    exact jsTrim_cons_ne _ (digit_not_ws ha)
  have hsplit2 : splitChar '-' [a, b, '-', c, d, '-', e, f] = [[a, b], [c, d], [e, f]] := by
    have e1 : ([a, b, '-', c, d, '-', e, f] : List Char) =
        [a, b] ++ '-' :: ([c, d] ++ '-' :: [e, f]) := rfl
    rw [e1]
    rw [splitChar_append_sep '-' [a, b] _ (by
      intro x hx
      rcases List.mem_pair.mp hx with rfl | rfl
      · exact digit_ne ha (by decide)
      · exact digit_ne hb (by decide))]
    rw [splitChar_append_sep '-' [c, d] _ (by
      intro x hx
      rcases List.mem_pair.mp hx with rfl | rfl
      · exact digit_ne hc (by decide)
      · exact digit_ne hd (by decide))]
    rw [splitChar_no_sep '-' [e, f] (by
      intro x hx
      rcases List.mem_pair.mp hx with rfl | rfl
      · exact digit_ne he (by decide)
      · exact digit_ne hf (by decide))]
  rw [parseTimeTrackerDate, if_neg htrim, hsplit]
  show (if matchDatePattern [a, b, '-', c, d, '-', e, f] && matchTimePattern t then _ else none) = _
  rw [hdp, htp]
  show (match splitChar '-' [a, b, '-', c, d, '-', e, f] with
    | [yc, mc, dc] => _
    | _ => none) = _
  rw [hsplit2]
  show (match jsParseInt [a, b], jsParseInt [c, d], jsParseInt [e, f] with
    | some y0, some mo, some d => _
    | _, _, _ => none) = _
  rw [jsParseInt_two_digits ha hb, jsParseInt_two_digits hc hd, jsParseInt_two_digits he hf]

theorem digitVal_le_9 {x : Char} (h : isDigitChar x = true) : digitVal x ≤ 9 := by
  rw [isDigitChar] at h
  simp only [Bool.and_eq_true, decide_eq_true_eq] at h
  rw [digitVal]
  omega

theorem matchDate_digits {a b c d e f : Char}
    (h : matchDatePattern [a, b, '-', c, d, '-', e, f] = true) :
    isDigitChar a = true ∧ isDigitChar b = true ∧ isDigitChar c = true ∧
    isDigitChar d = true ∧ isDigitChar e = true ∧ isDigitChar f = true := by
  rw [matchDatePattern] at h
  simp only [Bool.and_eq_true, decide_eq_true_eq] at h
  refine ⟨?_, ?_, ?_, ?_, ?_, ?_⟩ <;> tauto

theorem parseTimeTrackerDate_trim_none {s : List Char} (h : jsTrim s = []) :
    parseTimeTrackerDate s = none := by
  rw [parseTimeTrackerDate, if_pos h]

theorem parseTimeTrackerDate_split_none {s : List Char}
    (h : (splitChar ' ' s).length ≠ 2) : parseTimeTrackerDate s = none := by
  rw [parseTimeTrackerDate]
  split
  · rfl
  · split
    · rename_i heq
      exact absurd (by simp [heq] : (splitChar ' ' s).length = 2) h
    · rfl

theorem parseTimeTrackerDate_pattern_none {s d t : List Char}
    (hsplit : splitChar ' ' s = [d, t])
    (hfail : matchDatePattern d = false ∨ matchTimePattern t = false) :
    parseTimeTrackerDate s = none := by
  rw [parseTimeTrackerDate]
  split
  · rfl
  · split
    · rename_i dp tp heq
      rw [hsplit] at heq
      injection heq with h1 h2
      injection h2 with h2 h3
      subst h1
      subst h2
      rcases hfail with hf | hf <;> simp [hf]
    · rename_i hne
      exact absurd hsplit (hne d t)

theorem parseTimeTrackerDate_year_none {s t : List Char} {a b c d e f : Char}
    (_hsplit : splitChar ' ' s = [[a, b, '-', c, d, '-', e, f], t])
    (hdp : matchDatePattern [a, b, '-', c, d, '-', e, f] = true)
    (_htp : matchTimePattern t = true)
    (hy : mapCentury (10 * digitVal a + digitVal b) < 1900 ∨
      2100 < mapCentury (10 * digitVal a + digitVal b)) :
    parseTimeTrackerDate s = none := by
  exfalso
  obtain ⟨ha, hb, -, -, -, -⟩ := matchDate_digits hdp
  have h1 := digitVal_le_9 ha
  have h2 := digitVal_le_9 hb
  rw [mapCentury] at hy
  rcases hy with hy | hy <;> (revert hy; split <;> omega)

theorem parseTimeTrackerDate_range_none {s t : List Char} {a b c d e f : Char}
    (hsplit : splitChar ' ' s = [[a, b, '-', c, d, '-', e, f], t])
    (hdp : matchDatePattern [a, b, '-', c, d, '-', e, f] = true)
    (htp : matchTimePattern t = true)
    (hrange : 10 * digitVal c + digitVal d < 1 ∨ 12 < 10 * digitVal c + digitVal d ∨
      10 * digitVal e + digitVal f < 1 ∨ 31 < 10 * digitVal e + digitVal f) :
    parseTimeTrackerDate s = none := by
  rw [parseTimeTrackerDate_eval hsplit hdp htp]
  have hcond : ((((10 * digitVal c + digitVal d : Nat) : Int)) < 1 ||
      12 < (((10 * digitVal c + digitVal d : Nat) : Int)) ||
      (((10 * digitVal e + digitVal f : Nat) : Int)) < 1 ||
      31 < (((10 * digitVal e + digitVal f : Nat) : Int))) = true := by
    simp only [Bool.or_eq_true, decide_eq_true_eq]
    omega
  simp only [hcond, if_true]

theorem parseTimeTrackerDate_success_eval {s t : List Char} {a b c d e f : Char}
    (hsplit : splitChar ' ' s = [[a, b, '-', c, d, '-', e, f], t])
    (hdp : matchDatePattern [a, b, '-', c, d, '-', e, f] = true)
    (htp : matchTimePattern t = true)
    (hmo1 : 1 ≤ 10 * digitVal c + digitVal d) (hmo2 : 10 * digitVal c + digitVal d ≤ 12)
    (hdy1 : 1 ≤ 10 * digitVal e + digitVal f) (hdy2 : 10 * digitVal e + digitVal f ≤ 31) :
    parseTimeTrackerDate s =
      (if (jsDateParse (canonicalForm (10 * digitVal a + digitVal b)
          (10 * digitVal c + digitVal d) (10 * digitVal e + digitVal f) t)).isSome then
        some (canonicalForm (10 * digitVal a + digitVal b)
          (10 * digitVal c + digitVal d) (10 * digitVal e + digitVal f) t)
      else none) := by
  have hy99 : 10 * digitVal a + digitVal b ≤ 109 := by
    have ha9 : digitVal a ≤ 9 := by
      rw [matchDatePattern] at hdp
      simp only [Bool.and_eq_true, decide_eq_true_eq] at hdp
      rw [digitVal]
      have := hdp.1.1.1.1.1.1.1
      rw [isDigitChar] at this
      simp at this
      omega
    have hb9 : digitVal b ≤ 9 := by
      rw [matchDatePattern] at hdp
      simp only [Bool.and_eq_true, decide_eq_true_eq] at hdp
      rw [digitVal]
      have := hdp.1.1.1.1.1.1.2
      rw [isDigitChar] at this
      simp at this
      omega
    omega
  rw [parseTimeTrackerDate_eval hsplit hdp htp]
  have hcond : ((((10 * digitVal c + digitVal d : Nat) : Int)) < 1 ||
      12 < (((10 * digitVal c + digitVal d : Nat) : Int)) ||
      (((10 * digitVal e + digitVal f : Nat) : Int)) < 1 ||
      31 < (((10 * digitVal e + digitVal f : Nat) : Int))) = false := by
    simp only [Bool.or_eq_false_iff, decide_eq_false_iff_not]
    omega
  simp only [hcond, if_false, Bool.false_eq_true]
  have hyear : (if (((10 * digitVal a + digitVal b : Nat) : Int)) < 50 then
      2000 + (((10 * digitVal a + digitVal b : Nat) : Int))
    else 1900 + (((10 * digitVal a + digitVal b : Nat) : Int))) =
      ((mapCentury (10 * digitVal a + digitVal b) : Nat) : Int) := by
    rw [mapCentury]
    by_cases h : 10 * digitVal a + digitVal b < 50
    · rw [if_pos (by exact_mod_cast h), if_pos h]
      omega
    · rw [if_neg (by exact_mod_cast h), if_neg h]
      omega
  rw [hyear]
  have hybound : ((((mapCentury (10 * digitVal a + digitVal b) : Nat) : Int)) < 1900 ||
      2100 < (((mapCentury (10 * digitVal a + digitVal b) : Nat) : Int))) = false := by
    simp only [Bool.or_eq_false_iff, decide_eq_false_iff_not]
    rw [mapCentury]
    constructor <;> (split <;> omega)
  simp only [hybound, if_false, Bool.false_eq_true]
  rw [canonicalForm]
  rw [toString_intCast_nat]
  show (if (jsDateParse ((toString (mapCentury (10 * digitVal a + digitVal b))).data ++
      '-' :: pad2Int (((10 * digitVal c + digitVal d : Nat) : Int)) ++
      '-' :: pad2Int (((10 * digitVal e + digitVal f : Nat) : Int)) ++ 'T' :: t)).isSome then _
    else none) = _
  rw [show pad2Int (((10 * digitVal c + digitVal d : Nat) : Int)) =
      padStart2 (toString (10 * digitVal c + digitVal d)).data from by
    rw [pad2Int, toString_intCast_nat]]
  rw [show pad2Int (((10 * digitVal e + digitVal f : Nat) : Int)) =
      padStart2 (toString (10 * digitVal e + digitVal f)).data from by
    rw [pad2Int, toString_intCast_nat]]

theorem parseTimeTrackerDate_some_inv {x s : List Char}
    (h : parseTimeTrackerDate x = some s) : ∃ t : Int, jsDateParse s = some t := by
  rw [parseTimeTrackerDate] at h
  repeat' (first | split at h | (simp only [] at h))
  all_goals first
  | (rename_i hsome
     injection h with h
     subst h
     exact Option.isSome_iff_exists.mp hsome)
  | simp at h

/-! ## Claims -/

/-- C4: `processEntries` returns the pre-order flattening — each input
entry yields exactly one output entry annotated with `level` = its depth,
immediately followed by the flattening of its `subEntries` at depth + 1,
order strictly preserved; flattening `[{name:"A", subEntries:[{name:"B"}]}]`
from depth 0 yields exactly `[{name:"A", level:0}, {name:"B", level:1}]`. -/
theorem processEntries_is_preorder_flatten :
    (∀ (entries : List RawEntry) (d : Nat),
      processEntries entries d = flattenEntries entries d) ∧
    processEntries
        [.mk (some "A".data) none none [.mk (some "B".data) none none []]] 0 =
      [{ name := some "A".data, startTime := none, endTime := none, level := 0,
         duration := .num 0 },
       { name := some "B".data, startTime := none, endTime := none, level := 1,
         duration := .num 0 }] := by
  refine ⟨processEntries_eq_flattenEntries, ?_⟩
  simp [processEntries, calculateDuration, jsFalsyStr]

/-- C3: `calculateEntryDuration` is 0 whenever an endpoint is null or
fails to parse as a date, and otherwise is the end-minus-start difference
in hours clamped to `[0, 8760]`; it is never negative and never exceeds
8760; the rendered total hours is the sum of the per-entry durations. -/
theorem calculateEntryDuration_clamped_spec :
    (∀ e : TimeEntry, e.startTime = none ∨ e.endTime = none →
      calculateEntryDuration e = 0) ∧
    (∀ (e : TimeEntry) (s en : List Char), e.startTime = some s →
      e.endTime = some en → (jsDateParse s = none ∨ jsDateParse en = none) →
      calculateEntryDuration e = 0) ∧
    (∀ (e : TimeEntry) (s en : List Char) (ts te : Int), e.startTime = some s →
      e.endTime = some en → jsDateParse s = some ts → jsDateParse en = some te →
      calculateEntryDuration e =
        max 0 (min (((te - ts : Int) : ℚ) / (1000 * 60 * 60)) (24 * 365))) ∧
    (∀ e : TimeEntry,
      0 ≤ calculateEntryDuration e ∧ calculateEntryDuration e ≤ 8760) ∧
    (∀ entries : List TimeEntry,
      calculateTotalHours entries = (entries.map calculateEntryDuration).sum) := by
  refine ⟨?_, ?_, ?_, ?_, ?_⟩
  · intro e h
    rcases h with h | h <;> simp [calculateEntryDuration, h, jsFalsyStr]
  · intro e s en h1 h2 h3
    by_cases hs : s = []
    · simp [calculateEntryDuration, h1, h2, jsFalsyStr, hs]
    · by_cases he : en = []
      · simp [calculateEntryDuration, h1, h2, jsFalsyStr, he]
      · rcases h3 with h3 | h3 <;>
          simp [calculateEntryDuration, h1, h2, jsFalsyStr, hs, he, h3]
  · intro e s en ts te h1 h2 h3 h4
    have hs : s ≠ [] := by
      intro h
      rw [h] at h3
      simp [jsDateParse] at h3
    have he : en ≠ [] := by
      intro h
      rw [h] at h4
      simp [jsDateParse] at h4
    simp [calculateEntryDuration, h1, h2, jsFalsyStr, hs, he, h3, h4,
      jsMax_eq_max, jsMin_eq_min]
  · intro e
    have hb : ∀ q : ℚ, 0 ≤ max 0 (min q (24 * 365)) ∧ max 0 (min q (24 * 365)) ≤ 8760 :=
      fun q => ⟨le_max_left _ _,
        max_le (by norm_num) (le_trans (min_le_right _ _) (by norm_num))⟩
    obtain ⟨n, st, en, lv⟩ := e
    rcases st with _ | s
    · simp [calculateEntryDuration, jsFalsyStr]
    · rcases en with _ | t
      · simp [calculateEntryDuration, jsFalsyStr]
      · by_cases hs : s = []
        · simp [calculateEntryDuration, jsFalsyStr, hs]
        · by_cases ht : t = []
          · simp [calculateEntryDuration, jsFalsyStr, ht]
          · have hmatch : calculateEntryDuration ⟨n, some s, some t, lv⟩ =
                match jsDateParse s, jsDateParse t with
                | some ts, some te =>
                  max 0 (min (((te - ts : Int) : ℚ) / (1000 * 60 * 60)) (24 * 365))
                | _, _ => (0 : ℚ) := by
              simp [calculateEntryDuration, jsFalsyStr, hs, ht,
                jsMax_eq_max, jsMin_eq_min]
            rw [hmatch]
            rcases jsDateParse s with _ | ts <;> rcases jsDateParse t with _ | te <;>
              simp
            all_goals first
            | exact hb _
            | norm_num
  · intro entries
    rw [calculateTotalHours, foldl_add_eq_sum, zero_add]

/-- Witness for C3 at concrete inputs. -/
theorem calculateEntryDuration_clamped_spec_witness :
    calculateEntryDuration ⟨"x".data, some "2023-06-15T09:00:00".data,
        some "2023-06-15T11:30:00".data, none⟩ =
      max 0 (min (((1686828600000 - 1686819600000 : Int) : ℚ) / (1000 * 60 * 60))
        (24 * 365)) ∧
    calculateEntryDuration ⟨"y".data, none, some "2023-06-15T11:30:00".data, none⟩ = 0 :=
  ⟨calculateEntryDuration_clamped_spec.2.2.1 _ _ _ _ _ rfl rfl (by decide) (by decide),
   calculateEntryDuration_clamped_spec.1 _ (Or.inl rfl)⟩

/-- C8 counterexample: `substring(0, 50)` runs after the edge-hyphen
stripping, so the 50-character cut can end in a hyphen — sanitizing
49 `a`s followed by `" bb"` yields a 50-character string whose last
character is `'-'`, contradicting "no trailing hyphen". -/
theorem sanitizeFilename_truncation_trailing_hyphen :
    sanitizeFilename (List.replicate 49 'a' ++ " bb".data) =
      List.replicate 49 'a' ++ ['-'] ∧
    (sanitizeFilename (List.replicate 49 'a' ++ " bb".data)).getLast? = some '-' :=
  ⟨by decide, by decide⟩

/-- C8 (amended): `sanitizeFilename` replaces filesystem-unsafe
characters and whitespace runs with single hyphens, collapses hyphen
runs, strips the leading and trailing hyphen, and only then truncates to
50 characters; hence the result has at most 50 characters, no
consecutive hyphens and no leading hyphen, and is hyphen-free at both
ends before truncation (a trailing hyphen can appear only through the
final cut); an unset company name defaults to "Company" before
sanitization; sanitizing "My / Co: LLC***" yields "My-Co-LLC". -/
theorem sanitizeFilename_spec :
    (∀ l : List Char, sanitizeFilename l = (preSanitize l).take 50) ∧
    (∀ l : List Char, NoDoubleHyphen (preSanitize l) ∧
      (preSanitize l).head? ≠ some '-' ∧ (preSanitize l).getLast? ≠ some '-') ∧
    (∀ l : List Char, (sanitizeFilename l).length ≤ 50 ∧
      NoDoubleHyphen (sanitizeFilename l) ∧ (sanitizeFilename l).head? ≠ some '-') ∧
    (∀ (settings : InvoiceSettings) (now : SimpleDate) (r : ℚ),
      settings.companyName = [] →
      generateFileName settings now r =
        sanitizeFilename "Company".data ++ "-invoice-".data ++
          generateInvoiceNumber now r ++ ".pdf".data) ∧
    sanitizeFilename "My / Co: LLC***".data = "My-Co-LLC".data := by
  refine ⟨fun l => rfl, ?_, ?_, ?_, by decide⟩
  · intro l
    exact stripEdge_spec (chain'_collapse_hyphens _)
  · intro l
    have hp : NoDoubleHyphen (preSanitize l) ∧
        (preSanitize l).head? ≠ some '-' ∧ (preSanitize l).getLast? ≠ some '-' :=
      stripEdge_spec (chain'_collapse_hyphens _)
    refine ⟨?_, ?_, ?_⟩
    · rw [sanitizeFilename]
      simp [List.length_take]
    · exact hp.1.take 50
    · rw [sanitizeFilename, List.head?_take]
      simpa using hp.2.1
  · intro settings now r h
    simp [generateFileName, h]

/-- Witness for C8's default-company-name conjunct at a concrete input. -/
theorem sanitizeFilename_spec_witness :
    generateFileName ⟨[], [], [], 100, [], [], []⟩ ⟨2025, 10, 12⟩ (1/2) =
      sanitizeFilename "Company".data ++ "-invoice-".data ++
        generateInvoiceNumber ⟨2025, 10, 12⟩ (1/2) ++ ".pdf".data :=
  sanitizeFilename_spec.2.2.2.1 _ _ _ rfl

/-- C7 counterexample: `Math.random()` may return `0.99995`, a
legitimate draw in `[0, 1)`, and then `Math.floor(0.99995 * 10000)` is
`9999` — the suffix `9999` IS produced, contradicting "the value 9999 is
never produced". -/
theorem generateInvoiceNumber_9999 :
    ((0:ℚ) ≤ 19999/20000 ∧ (19999/20000 : ℚ) < 1) ∧
    generateInvoiceNumber ⟨2025, 10, 12⟩ (19999/20000) = "2025-10-12-9999".data := by
  have h9 : (⌊(19999/20000 : ℚ) * 10000⌋ : ℤ) = 9999 := by
    rw [Int.floor_eq_iff]
    norm_num
  refine ⟨⟨by norm_num, by norm_num⟩, ?_⟩
  rw [generateInvoiceNumber, h9]
  decide

/-- C7 (amended): every generated invoice number is the current date
with zero-padded month and day followed by `-` and
`⌊rand * 10000⌋`, a random integer in `[0, 10000)` — that is, `0 ≤ n ≤
9999` with 9999 included. -/
theorem generateInvoiceNumber_format (now : SimpleDate) (r : ℚ)
    (h0 : 0 ≤ r) (h1 : r < 1) :
    ∃ n : ℕ, n = (Int.floor (r * 10000)).toNat ∧ n ≤ 9999 ∧
      generateInvoiceNumber now r =
        (toString now.year).data ++ '-' :: pad2Nat now.month ++
          '-' :: pad2Nat now.day ++ '-' :: (toString n).data := by
  have hge : 0 ≤ Int.floor (r * 10000) := by
    apply Int.le_floor.mpr
    push_cast
    positivity
  refine ⟨(Int.floor (r * 10000)).toNat, rfl, ?_, ?_⟩
  · have hlt : r * 10000 < 10000 := by nlinarith
    have hfl : Int.floor (r * 10000) < 10000 := Int.floor_lt.mpr (by exact_mod_cast hlt)
    omega
  · rw [generateInvoiceNumber]
    have hstr : toString (Int.floor (r * 10000)) =
        toString (Int.floor (r * 10000)).toNat := by
      nth_rewrite 1 [← Int.toNat_of_nonneg hge]
      exact toString_intCast_nat _
    rw [hstr]

/-- Witness for C7's amended format theorem at a concrete draw. -/
theorem generateInvoiceNumber_format_witness :
    (0:ℚ) ≤ 1/2 ∧ (1/2:ℚ) < 1 ∧
    ∃ n : ℕ, n = (Int.floor ((1/2 : ℚ) * 10000)).toNat ∧ n ≤ 9999 ∧
      generateInvoiceNumber ⟨2025, 10, 12⟩ (1/2) =
        (toString 2025).data ++ '-' :: pad2Nat 10 ++
          '-' :: pad2Nat 12 ++ '-' :: (toString n).data :=
  ⟨by norm_num, by norm_num,
   generateInvoiceNumber_format ⟨2025, 10, 12⟩ (1/2) (by norm_num) (by norm_num)⟩

/-- C6: `extractDataFromTable` skips row 0 and processes at most 1000
data rows — it equals the filter-map over `rows.drop 1 |>.take 1000`, so
rows at index 1001 and beyond are ignored without error (the result is
unchanged under truncation to the first 1001 rows), a row with fewer
than 4 cells contributes no entry, and every row with at least 4 cells
within the cap contributes exactly one entry. -/
theorem extractDataFromTable_spec :
    (∀ rows : List TableRow,
      extractDataFromTable rows =
        (let es := (((rows.drop 1).take 1000).filter fun r => 4 ≤ r.length).map rowToEntry
         if es = [] then none else some es)) ∧
    (∀ rows : List TableRow,
      extractDataFromTable rows = extractDataFromTable (rows.take 1001)) := by
  refine ⟨extractDataFromTable_characterization, ?_⟩
  intro rows
  rw [extractDataFromTable_characterization, extractDataFromTable_characterization]
  have heq : ((rows.take 1001).drop 1).take 1000 = (rows.drop 1).take 1000 := by
    rw [List.drop_take, List.take_take]
    norm_num
  rw [heq]

/-- C2 counterexample: the engine checks only `flatRateAmount !==
undefined`, so a defined but negative amount (−5) still switches it into
flat-rate mode — the rate cell renders the dash and the summary total is
−5 — while absence renders hourly cells and total 250 for the same
2.5-hour entry at rate 100; the two behaviors differ, refuting "a
non-positive flatRateAmount behaves identically to absence". -/
theorem addPDFContent_negative_flat_not_absence :
    (addPDFContent ⟨2025, 10, 12⟩ 0
        [⟨"Task".data, some "2023-06-15T09:00:00".data,
          some "2023-06-15T11:30:00".data, some 0⟩]
        ⟨"Acme".data, [], [], 100, [], [], []⟩
        (some ⟨some (-5)⟩)).rows.map (fun r => r.rate) = [PDFCell.dash] ∧
    (addPDFContent ⟨2025, 10, 12⟩ 0
        [⟨"Task".data, some "2023-06-15T09:00:00".data,
          some "2023-06-15T11:30:00".data, some 0⟩]
        ⟨"Acme".data, [], [], 100, [], [], []⟩
        (some ⟨some (-5)⟩)).totalAmount = -5 ∧
    (addPDFContent ⟨2025, 10, 12⟩ 0
        [⟨"Task".data, some "2023-06-15T09:00:00".data,
          some "2023-06-15T11:30:00".data, some 0⟩]
        ⟨"Acme".data, [], [], 100, [], [], []⟩
        none).rows.map (fun r => r.rate) = [PDFCell.val 100] ∧
    (addPDFContent ⟨2025, 10, 12⟩ 0
        [⟨"Task".data, some "2023-06-15T09:00:00".data,
          some "2023-06-15T11:30:00".data, some 0⟩]
        ⟨"Acme".data, [], [], 100, [], [], []⟩
        none).totalAmount = 250 ∧
    (addPDFContent ⟨2025, 10, 12⟩ 0
        [⟨"Task".data, some "2023-06-15T09:00:00".data,
          some "2023-06-15T11:30:00".data, some 0⟩]
        ⟨"Acme".data, [], [], 100, [], [], []⟩
        (some ⟨some (-5)⟩)).totalAmount ≠
      (addPDFContent ⟨2025, 10, 12⟩ 0
        [⟨"Task".data, some "2023-06-15T09:00:00".data,
          some "2023-06-15T11:30:00".data, some 0⟩]
        ⟨"Acme".data, [], [], 100, [], [], []⟩
        none).totalAmount := by
  have h1 : jsDateParse "2023-06-15T09:00:00".data = some 1686819600000 := by decide
  have h2 : jsDateParse "2023-06-15T11:30:00".data = some 1686828600000 := by decide
  have hd : calculateEntryDuration ⟨"Task".data, some "2023-06-15T09:00:00".data,
      some "2023-06-15T11:30:00".data, some 0⟩ = 5/2 := by
    simp [calculateEntryDuration, jsFalsyStr, h1, h2, jsMax_eq_max, jsMin_eq_min]
    rw [min_eq_left (by norm_num), max_eq_right (by norm_num)]
    norm_num
  refine ⟨?_, ?_, ?_, ?_, ?_⟩
  · simp [addPDFContent, effectiveFlatAmount]
  · simp [addPDFContent, effectiveFlatAmount]
  · simp [addPDFContent, effectiveFlatAmount]
  · simp [addPDFContent, effectiveFlatAmount, calculateTotalHours, hd]
    norm_num
  · simp [addPDFContent, effectiveFlatAmount, calculateTotalHours, hd]
    norm_num

/-- C2 (amended): the rendering engine operates in flat-rate mode if and
only if the supplied `flatRateAmount` is defined, whatever its value: in
flat-rate mode every per-entry rate and amount cell renders the dash and
the summary fields show the flat amount; when it is undefined (also when
`options` itself is absent) the engine behaves exactly as in absence —
hourly mode, where each entry's amount is its duration times the
configured hourly rate and the summary total is total hours times the
hourly rate. -/
theorem addPDFContent_flat_iff_defined :
    (∀ (now : SimpleDate) (rand : ℚ) (entries : List TimeEntry)
        (settings : InvoiceSettings) (options : Option InvoiceOptions) (a : ℚ),
      effectiveFlatAmount options = some a →
      (addPDFContent now rand entries settings options).rows.map (fun r => r.rate) =
          entries.map (fun _ => PDFCell.dash) ∧
      (addPDFContent now rand entries settings options).rows.map (fun r => r.amount) =
          entries.map (fun _ => PDFCell.dash) ∧
      (addPDFContent now rand entries settings options).rateLabel = "Project Rate:".data ∧
      (addPDFContent now rand entries settings options).rateValue = a ∧
      (addPDFContent now rand entries settings options).totalAmount = a) ∧
    (∀ (now : SimpleDate) (rand : ℚ) (entries : List TimeEntry)
        (settings : InvoiceSettings) (options : Option InvoiceOptions),
      effectiveFlatAmount options = none →
      addPDFContent now rand entries settings options =
        addPDFContent now rand entries settings none ∧
      (addPDFContent now rand entries settings options).rows.map (fun r => r.rate) =
          entries.map (fun _ => PDFCell.val settings.hourlyRate) ∧
      (addPDFContent now rand entries settings options).rows.map (fun r => r.amount) =
          entries.map (fun e => PDFCell.val (calculateEntryDuration e * settings.hourlyRate)) ∧
      (addPDFContent now rand entries settings options).rateLabel = "Hourly Rate:".data ∧
      (addPDFContent now rand entries settings options).rateValue = settings.hourlyRate ∧
      (addPDFContent now rand entries settings options).totalAmount =
        calculateTotalHours entries * settings.hourlyRate) := by
  constructor
  · intro now rand entries settings options a h
    refine ⟨?_, ?_, ?_, ?_, ?_⟩ <;>
      simp [addPDFContent, h, List.map_map, Function.comp_def]
  · intro now rand entries settings options h
    have hnone : effectiveFlatAmount none = none := rfl
    refine ⟨?_, ?_, ?_, ?_, ?_, ?_⟩ <;>
      simp [addPDFContent, h, hnone, List.map_map, Function.comp_def]

/-- Witness for C2's amended mode-selection theorem at concrete inputs. -/
theorem addPDFContent_flat_iff_defined_witness :
    effectiveFlatAmount (some ⟨some 500⟩) = some 500 ∧
    (addPDFContent ⟨2025, 10, 12⟩ 0
        [⟨"Task".data, some "2023-06-15T09:00:00".data,
          some "2023-06-15T11:30:00".data, some 0⟩]
        ⟨"Acme".data, [], [], 100, [], [], []⟩
        (some ⟨some 500⟩)).totalAmount = 500 :=
  ⟨rfl, (addPDFContent_flat_iff_defined.1 ⟨2025, 10, 12⟩ 0
    [⟨"Task".data, some "2023-06-15T09:00:00".data,
      some "2023-06-15T11:30:00".data, some 0⟩]
    ⟨"Acme".data, [], [], 100, [], [], []⟩
    (some ⟨some 500⟩) 500 rfl).2.2.2.2⟩

/-- C9: any exception during layout/composition is caught and re-raised
as one wrapped generation-failure error whose message carries the
original error's message (through the `PDF generation failed:` and
`Failed to generate invoice:` prefixes), and no document is returned or
persisted: a successful (`ok`) result exists only when the layout and the
persistence step both succeeded. -/
theorem generateInvoice_wraps_failure :
    (∀ (msg path : List Char) (persist : Except (List Char) Unit),
      generateInvoice (.error msg) persist path =
        .error ("Failed to generate invoice: PDF generation failed: ".data ++ msg)) ∧
    (∀ (layout : Except (List Char) PDFData) (persist : Except (List Char) Unit)
        (path : List Char) (r : List Char × PDFData),
      generateInvoice layout persist path = .ok r →
      layout = .ok r.2 ∧ persist = .ok () ∧ r.1 = path) := by
  constructor
  · intro msg path persist
    show Except.error ("Failed to generate invoice: ".data ++
      ("PDF generation failed: ".data ++ msg)) = _
    rw [← List.append_assoc]
    congr 1
  · intro layout persist path r h
    rcases layout with msg | doc
    · simp [generateInvoice, generatePDF, Bind.bind, Except.bind, Functor.map,
        Except.map] at h
    · rcases persist with pmsg | u
      · simp [generateInvoice, generatePDF, Bind.bind, Except.bind, Functor.map,
          Except.map] at h
      · simp [generateInvoice, generatePDF, Bind.bind, Except.bind, Functor.map,
          Except.map, pure, Except.pure] at h
        subst h
        exact ⟨rfl, rfl, rfl⟩

/-- Witness for C9 at a concrete layout failure. -/
theorem generateInvoice_wraps_failure_witness :
    generateInvoice (.error "boom".data) (.ok ()) "Invoices/a.pdf".data =
      .error ("Failed to generate invoice: PDF generation failed: ".data ++ "boom".data) :=
  generateInvoice_wraps_failure.1 _ _ _

/-- C10: within one `generateInvoice` invocation, the invoice number in
the document header and the one in the file name come from two
independent `generateInvoiceNumber` calls (draws 0 and 1 of the random
stream); for the concrete outcome `0, 0.5` the header reads
`2025-10-12-0` while the file is `Company-invoice-2025-10-12-5000.pdf`,
and the printed number does not occur in the file name at all. -/
theorem invoice_numbers_independent :
    (∀ (now : SimpleDate) (rands : ℕ → ℚ) (entries : List TimeEntry)
        (settings : InvoiceSettings) (options : Option InvoiceOptions),
      (generateInvoiceModel now rands entries settings options).1.invoiceNumber =
        generateInvoiceNumber now (rands 0) ∧
      (generateInvoiceModel now rands entries settings options).2 =
        generateFileName settings now (rands 1)) ∧
    ((generateInvoiceModel ⟨2025, 10, 12⟩ (fun n => if n = 0 then 0 else 1/2) []
        ⟨[], [], [], 100, [], [], []⟩ none).1.invoiceNumber = "2025-10-12-0".data ∧
     (generateInvoiceModel ⟨2025, 10, 12⟩ (fun n => if n = 0 then 0 else 1/2) []
        ⟨[], [], [], 100, [], [], []⟩ none).2 =
          "Company-invoice-2025-10-12-5000.pdf".data ∧
     ¬ ((generateInvoiceModel ⟨2025, 10, 12⟩ (fun n => if n = 0 then 0 else 1/2) []
        ⟨[], [], [], 100, [], [], []⟩ none).1.invoiceNumber <:+:
        (generateInvoiceModel ⟨2025, 10, 12⟩ (fun n => if n = 0 then 0 else 1/2) []
          ⟨[], [], [], 100, [], [], []⟩ none).2)) := by
  have h0 : (⌊(0 : ℚ) * 10000⌋ : ℤ) = 0 := by norm_num
  have h5 : (⌊(1/2 : ℚ) * 10000⌋ : ℤ) = 5000 := by
    rw [Int.floor_eq_iff]
    norm_num
  refine ⟨fun now rands entries settings options => ⟨rfl, rfl⟩, ?_, ?_, ?_⟩
  · show generateInvoiceNumber ⟨2025, 10, 12⟩ 0 = _
    rw [generateInvoiceNumber]
    norm_num [h0]
    decide
  · show generateFileName ⟨[], [], [], 100, [], [], []⟩ ⟨2025, 10, 12⟩ (1/2) = _
    rw [generateFileName, generateInvoiceNumber]
    norm_num [h5]
    decide
  · show ¬ (generateInvoiceNumber ⟨2025, 10, 12⟩ 0 <:+:
      generateFileName ⟨[], [], [], 100, [], [], []⟩ ⟨2025, 10, 12⟩ (1/2))
    rw [generateFileName, generateInvoiceNumber, generateInvoiceNumber]
    norm_num [h0, h5]
    decide

/-- C1 counterexample: the code reads the FIRST date component as the
two-digit year (token order `YY-MM-DD`), not the day: `"15-06-23
09:30:00"` maps to `2015-06-23T09:30:00`, not `"2023-06-15T09:30:00"` as
the claim's `DD-MM-YY` reading demands; and `"40-06-23 09:30:00"`, whose
first component 40 would be an out-of-range day under the claim, is
accepted as the year 2040. -/
theorem parseTimeTrackerDate_component_order :
    parseTimeTrackerDate "15-06-23 09:30:00".data = some "2015-06-23T09:30:00".data ∧
    parseTimeTrackerDate "15-06-23 09:30:00".data ≠ some "2023-06-15T09:30:00".data ∧
    parseTimeTrackerDate "40-06-23 09:30:00".data = some "2040-06-23T09:30:00".data :=
  ⟨by decide, by decide, by decide⟩

/-- C1 (amended): `parseTimeTrackerDate` is a total function (never
raises) that returns `none` for empty/whitespace-only input, for input
not splitting on single spaces into exactly two tokens, for tokens not
matching `\d{2}-\d{2}-\d{2}` and `\d{2}:\d{2}:\d{2}`, for a month
(second date component) outside `[1,12]` or a day (third date component)
outside `[1,31]`, for a century-mapped year outside `[1900,2100]`
(vacuous, as the mapping of the first, year component lands in
`[1950,2049]`), and for strings passing those checks that do not denote
a real calendar instant; otherwise it returns `YYYY-MM-DDTHH:MM:SS`
where a two-digit year < 50 maps to `2000 + year` and ≥ 50 to
`1900 + year`; e.g. `"15-06-23 09:30:00"` maps to
`"2015-06-23T09:30:00"`, `"15-13-23 09:30:00"` (month 13) to `none`, and
`"23-02-29 10:00:00"` (2023-02-29, not a real date) to `none`. -/
theorem parseTimeTrackerDate_contract :
    (∀ s : List Char, jsTrim s = [] → parseTimeTrackerDate s = none) ∧
    (∀ s : List Char, (splitChar ' ' s).length ≠ 2 → parseTimeTrackerDate s = none) ∧
    (∀ s d t : List Char, splitChar ' ' s = [d, t] →
      (matchDatePattern d = false ∨ matchTimePattern t = false) →
      parseTimeTrackerDate s = none) ∧
    (∀ (s t : List Char) (a b c d e f : Char),
      splitChar ' ' s = [[a, b, '-', c, d, '-', e, f], t] →
      matchDatePattern [a, b, '-', c, d, '-', e, f] = true →
      matchTimePattern t = true →
      (10 * digitVal c + digitVal d < 1 ∨ 12 < 10 * digitVal c + digitVal d ∨
        10 * digitVal e + digitVal f < 1 ∨ 31 < 10 * digitVal e + digitVal f) →
      parseTimeTrackerDate s = none) ∧
    (∀ (s t : List Char) (a b c d e f : Char),
      splitChar ' ' s = [[a, b, '-', c, d, '-', e, f], t] →
      matchDatePattern [a, b, '-', c, d, '-', e, f] = true →
      matchTimePattern t = true →
      (mapCentury (10 * digitVal a + digitVal b) < 1900 ∨
        2100 < mapCentury (10 * digitVal a + digitVal b)) →
      parseTimeTrackerDate s = none) ∧
    (∀ (s t : List Char) (a b c d e f : Char),
      splitChar ' ' s = [[a, b, '-', c, d, '-', e, f], t] →
      matchDatePattern [a, b, '-', c, d, '-', e, f] = true →
      matchTimePattern t = true →
      1 ≤ 10 * digitVal c + digitVal d → 10 * digitVal c + digitVal d ≤ 12 →
      1 ≤ 10 * digitVal e + digitVal f → 10 * digitVal e + digitVal f ≤ 31 →
      parseTimeTrackerDate s =
        (if (jsDateParse (canonicalForm (10 * digitVal a + digitVal b)
            (10 * digitVal c + digitVal d) (10 * digitVal e + digitVal f) t)).isSome then
          some (canonicalForm (10 * digitVal a + digitVal b)
            (10 * digitVal c + digitVal d) (10 * digitVal e + digitVal f) t)
        else none)) ∧
    (parseTimeTrackerDate "15-06-23 09:30:00".data = some "2015-06-23T09:30:00".data ∧
     parseTimeTrackerDate "15-13-23 09:30:00".data = none ∧
     parseTimeTrackerDate "23-02-29 10:00:00".data = none) :=
  ⟨fun _ h => parseTimeTrackerDate_trim_none h,
   fun _ h => parseTimeTrackerDate_split_none h,
   fun _ _ _ hsplit hfail => parseTimeTrackerDate_pattern_none hsplit hfail,
   fun _ _ _ _ _ _ _ _ hsplit hdp htp hrange =>
     parseTimeTrackerDate_range_none hsplit hdp htp hrange,
   fun _ _ _ _ _ _ _ _ hsplit hdp htp hy =>
     parseTimeTrackerDate_year_none hsplit hdp htp hy,
   fun _ _ _ _ _ _ _ _ hsplit hdp htp hmo1 hmo2 hdy1 hdy2 =>
     parseTimeTrackerDate_success_eval hsplit hdp htp hmo1 hmo2 hdy1 hdy2,
   by decide, by decide, by decide⟩

/-- Witness for C1's amended contract at concrete inputs. -/
theorem parseTimeTrackerDate_contract_witness :
    parseTimeTrackerDate "   ".data = none ∧
    parseTimeTrackerDate "ab cd".data = none :=
  ⟨parseTimeTrackerDate_contract.1 _ (by decide),
   parseTimeTrackerDate_contract.2.2.1 _ "ab".data "cd".data (by decide)
     (Or.inl (by decide))⟩

/-- C5: re-parsing any canonical string produced by the normalizer
always succeeds — `new Date` on it yields a valid instant — so when both
endpoints of an entry are normalizer outputs, `calculateEntryDuration`
never takes its invalid-date branch: it returns the clamped difference,
not 0-because-NaN. -/
theorem normalizer_round_trip :
    (∀ x s : List Char, parseTimeTrackerDate x = some s →
      ∃ t : Int, jsDateParse s = some t) ∧
    (∀ (x1 x2 s1 s2 n : List Char) (lv : Option Nat),
      parseTimeTrackerDate x1 = some s1 → parseTimeTrackerDate x2 = some s2 →
      ∃ t1 t2 : Int, jsDateParse s1 = some t1 ∧ jsDateParse s2 = some t2 ∧
        calculateEntryDuration ⟨n, some s1, some s2, lv⟩ =
          max 0 (min (((t2 - t1 : Int) : ℚ) / (1000 * 60 * 60)) (24 * 365))) := by
  refine ⟨fun x s h => parseTimeTrackerDate_some_inv h, ?_⟩
  intro x1 x2 s1 s2 n lv h1 h2
  obtain ⟨t1, hp1⟩ := parseTimeTrackerDate_some_inv h1
  obtain ⟨t2, hp2⟩ := parseTimeTrackerDate_some_inv h2
  have hs1 : s1 ≠ [] := by
    intro hcon
    rw [hcon] at hp1
    simp [jsDateParse] at hp1
  have hs2 : s2 ≠ [] := by
    intro hcon
    rw [hcon] at hp2
    simp [jsDateParse] at hp2
  refine ⟨t1, t2, hp1, hp2, ?_⟩
  simp [calculateEntryDuration, jsFalsyStr, hs1, hs2, hp1, hp2,
    jsMax_eq_max, jsMin_eq_min]

/-- Witness for C5's round trip at concrete inputs. -/
theorem normalizer_round_trip_witness :
    parseTimeTrackerDate "24-01-01 00:00:00".data = some "2024-01-01T00:00:00".data ∧
    parseTimeTrackerDate "24-01-01 02:00:00".data = some "2024-01-01T02:00:00".data ∧
    ∃ t1 t2 : Int, jsDateParse "2024-01-01T00:00:00".data = some t1 ∧
      jsDateParse "2024-01-01T02:00:00".data = some t2 ∧
      calculateEntryDuration ⟨"w".data, some "2024-01-01T00:00:00".data,
          some "2024-01-01T02:00:00".data, none⟩ =
        max 0 (min (((t2 - t1 : Int) : ℚ) / (1000 * 60 * 60)) (24 * 365)) :=
  ⟨by decide, by decide,
   normalizer_round_trip.2 "24-01-01 00:00:00".data "24-01-01 02:00:00".data
     "2024-01-01T00:00:00".data "2024-01-01T02:00:00".data "w".data none
     (by decide) (by decide)⟩

end STTI
